import Mathlib

/-!
Shallow embedding of the temporal derivation engine implemented in
src/simulation_vis/src/components/Trip.js (mobility-simulation repository).

JavaScript values are modelled as follows:
* a value used as a number is `JNum := Option ℚ`; `none` models `undefined`,
  `null`, `NaN` or any non-numeric value, so `typeof v === "number"` is
  `isSome` (JSON data cannot contain `NaN`/`Infinity`, so `some q` with
  `q : ℚ` covers every numeric input value);
* a value used as a coordinate array is `JPt := Option (List JNum)`;
  `none` models a missing or non-array value, so `Array.isArray` is `isSome`;
* possibly-null entries of the input collections are `Option Trip` /
  `Option Passenger`; the source's `if (!t) continue` skips `none`.
-/

abbrev JNum := Option ℚ

abbrev JPt := Option (List JNum)

/-- JavaScript comparison `a <= b`: false when either side is not a number
(a comparison against `undefined` or `NaN` is always false). -/
def jle : JNum → JNum → Bool
  | some a, some b => a ≤ b
  | _, _ => false

/-- JavaScript comparison `a < b`. -/
def jlt : JNum → JNum → Bool
  | some a, some b => a < b
  | _, _ => false

/-- JavaScript comparison `a >= b`. -/
def jge (a b : JNum) : Bool := jle b a

/-- JavaScript strict equality `a === b` on coordinate values:
`undefined === undefined` is true, a number equals a number with the same
value, and a number is never equal to a non-number. -/
def jeq : JNum → JNum → Bool
  | some a, some b => a = b
  | none, none => true
  | _, _ => false

/-- JavaScript `a + b` on values used as numbers; any non-number operand
produces `NaN`, modelled as `none`. -/
def jadd : JNum → JNum → JNum
  | some a, some b => some (a + b)
  | _, _ => none

/-- JavaScript `a - b`; non-number operands produce `NaN` (`none`). -/
def jsub : JNum → JNum → JNum
  | some a, some b => some (a - b)
  | _, _ => none

/-- JavaScript `a * b`; non-number operands produce `NaN` (`none`). -/
def jmul : JNum → JNum → JNum
  | some a, some b => some (a * b)
  | _, _ => none

/-- JavaScript array read `l[i]` on an array of numbers: an out-of-bounds
read yields `undefined`, i.e. `none`. -/
def jnumAt (ts : List JNum) (i : ℕ) : JNum := ts[i]?.getD none

/-- JavaScript array read `l[i]` on an array of points. -/
def jptAt (rt : List JPt) (i : ℕ) : JPt := rt[i]?.getD none

/-- Read coordinate `i` of a point value (`p[0]` / `p[1]` in the source);
reading a coordinate of a non-array value gives `undefined` (`none`). -/
def jptGet (p : JPt) (i : ℕ) : JNum :=
  match p with
  | some l => jnumAt l i
  | none => none

/-- A trip record, Trip.js data model: `{passenger_id, route, timestamp}`.
`route`/`timestamp` are `none` when the field is missing or not an array. -/
structure Trip where
  passenger_id : Option ℤ
  route : Option (List JPt)
  timestamp : Option (List JNum)
deriving DecidableEq

/-- A passenger event: `{passenger_id, timestamp, loc, location, wait_min}`. -/
structure Passenger where
  passenger_id : Option ℤ
  timestamp : Option (List JNum)
  loc : Option (List JPt)
  location : JPt
  wait_min : JNum
deriving DecidableEq

/-- Derived per-passenger record built by the `passengerInfos` memo. -/
structure PassengerInfo where
  call : JNum
  pickupTime : JNum
  pickupLoc : JPt
deriving DecidableEq

/-- Entry of the per-frame `visiblePassengers` collection. -/
structure VisiblePassenger where
  location : List JNum
  wait : ℚ
deriving DecidableEq

/-- Entry of the per-frame arc collections (`{source, target}`). -/
structure Arc where
  source : List JNum
  target : List JNum
deriving DecidableEq

/-- Trip.js `addZeroFill`: left-pad a string to two characters with "0". -/
def addZeroFill (s : String) : String :=
  if s.length < 2 then "0" ++ s else s

/-- JavaScript `Math.round`: round half toward positive infinity. -/
def jsRound (q : ℚ) : ℤ := ⌊q + 1 / 2⌋

/-- JavaScript truncation toward zero, the effect of `parseInt` on the
decimal string of a finite number. -/
def jsTrunc (q : ℚ) : ℤ := if 0 ≤ q then ⌊q⌋ else ⌈q⌉

/-- JavaScript remainder `a % b` for `b ≠ 0`: `a - b * trunc(a / b)`
(the result has the sign of the dividend). -/
def jsMod (a b : ℚ) : ℚ := a - b * (jsTrunc (a / b) : ℚ)

/-- Trip.js `returnAnimationDisplayTime`: hour is
`parseInt((Math.round(time) / 60) % 24)` and minute is
`Math.round(time) % 60`, both zero-filled. -/
def returnAnimationDisplayTime (time : ℚ) : String × String :=
  (addZeroFill (toString (jsTrunc (jsMod ((jsRound time : ℚ) / 60) 24))),
   addZeroFill (toString (Int.tmod (jsRound time) 60)))

/-- Trip.js `waitToColor`: `w = Math.max(0, wait || 0)` (so `undefined`,
`null`, `NaN` and `0` all become `0`), then five branches on `w`. -/
def waitToColor (wait : JNum) : List ℕ :=
  let w : ℚ := max 0 (wait.getD 0)
  if w < 15 then [255, 255, 255]
  else if w < 30 then [255, 230, 230]
  else if w < 45 then [255, 190, 190]
  else if w < 60 then [255, 140, 140]
  else [200, 0, 0]

/-- Trip.js `minTime`: the simulation starts at 07:00 = 420 minutes. -/
def minTime : ℚ := 7 * 60

/-- Trip.js `animationSpeed = 0.5`. -/
def animationSpeed : ℚ := 1 / 2

/-- Trip.js `returnAnimationTime`: reset to `minTime` once the clock
exceeds `maxT`, otherwise advance by `0.01 * animationSpeed`. -/
def returnAnimationTime (maxT t : ℚ) : ℚ :=
  if t > maxT then minTime else t + 1 / 100 * animationSpeed

/-- Trip.js `dataMaxFromTrips`: largest numeric last timestamp over all
trips, `0` when there is none (trips with `!t`, a missing/empty
`timestamp`, or a non-numeric last entry are skipped). -/
def dataMaxFromTrips (trips : List (Option Trip)) : ℚ :=
  trips.foldl
    (fun maxT ot =>
      match ot with
      | none => maxT
      | some t =>
        match t.timestamp with
        | none => maxT
        | some ts =>
          if ts.length = 0 then maxT
          else
            match jnumAt ts (ts.length - 1) with
            | some lastT => if maxT < lastT then lastT else maxT
            | none => maxT)
    0

/-- Trip.js `dataMaxFromPassengers`: same scan over the passenger events. -/
def dataMaxFromPassengers (passengers : List (Option Passenger)) : ℚ :=
  passengers.foldl
    (fun maxT op =>
      match op with
      | none => maxT
      | some p =>
        match p.timestamp with
        | none => maxT
        | some ts =>
          if ts.length = 0 then maxT
          else
            match jnumAt ts (ts.length - 1) with
            | some lastT => if maxT < lastT then lastT else maxT
            | none => maxT)
    0

/-- Trip.js `maxTime` memo:
`candidate = Math.max(minTime + 60, dataMaxFromTrips, dataMaxFromPassengers)`,
kept when finite and above `minTime`, else `minTime + 60`. Rationals are
always finite, so `Number.isFinite(candidate)` is always true here. -/
def maxTime (trips : List (Option Trip)) (passengers : List (Option Passenger)) : ℚ :=
  let candidate := max (minTime + 60) (max (dataMaxFromTrips trips) (dataMaxFromPassengers passengers))
  if minTime < candidate then candidate else minTime + 60

/-- Trip.js `passengerInfos` first phase: the `tripByPid` map, an
insertion-ordered map from `passenger_id` to the first trip seen with that
id (`if (!tripByPid.has(pid)) tripByPid.set(pid, t)`); null trips and
trips with a missing `passenger_id` are skipped. -/
def buildTripByPid (trips : List (Option Trip)) : List (ℤ × Trip) :=
  trips.foldl
    (fun m ot =>
      match ot with
      | none => m
      | some t =>
        match t.passenger_id with
        | none => m
        | some pid => if (m.find? (fun e => e.1 == pid)).isSome then m else m ++ [(pid, t)])
    []

/-- `tripByPid.get(pid)`: `undefined` when the key is missing or the
passenger has no `passenger_id` (no entry is ever stored under a missing
id). -/
def mapGet (m : List (ℤ × Trip)) : Option ℤ → Option Trip
  | none => none
  | some pid => (m.find? (fun e => e.1 == pid)).map (fun e => e.2)

/-- The route-point test of the pickup-search loop: the point is an array
of length at least 2 whose first two entries are strictly equal to the
passenger's pickup coordinates. -/
def ptMatches (px0 px1 : JNum) (pt : JPt) : Bool :=
  match pt with
  | none => false
  | some coords =>
    decide (2 ≤ coords.length) && jeq (jnumAt coords 0) px0 && jeq (jnumAt coords 1) px1

/-- Trip.js pickup-search loop over the matched trip's route (`i` is the
current route index): skip non-array or short points; on the first point
strictly equal to the pickup location, return `t.timestamp[i]` when it is
a number and stop the scan either way (the source `break`s even when the
timestamp is not numeric, leaving `pickupTime` null). -/
def routePickupTime (ts : List JNum) (px0 px1 : JNum) : List JPt → ℕ → Option ℚ
  | [], _ => none
  | pt :: rest, i =>
    match pt with
    | none => routePickupTime ts px0 px1 rest (i + 1)
    | some coords =>
      if coords.length < 2 then routePickupTime ts px0 px1 rest (i + 1)
      else if jeq (jnumAt coords 0) px0 && jeq (jnumAt coords 1) px1 then
        jnumAt ts i
      else routePickupTime ts px0 px1 rest (i + 1)

/-- `call`: `p.timestamp[0]` when `p.timestamp` is an array of length at
least 1, else null. -/
def resolvedCall (p : Passenger) : JNum :=
  match p.timestamp with
  | some (c :: _) => c
  | _ => none

/-- Pickup coordinate extraction: `p.loc[0]` when `p.loc` is a nonempty
array, else `p.location` when that is an array, else null. -/
def resolvedPickupLoc (p : Passenger) : JPt :=
  match p.loc with
  | some (x :: _) => x
  | _ => p.location

/-- Rule (a) of the pickup-time chain: requires a matched trip, a truthy
pickup location and array-valued `route`/`timestamp` on the trip, then
runs the route scan. -/
def pickupFromTrips (m : List (ℤ × Trip)) (p : Passenger) : Option ℚ :=
  match mapGet m p.passenger_id, resolvedPickupLoc p with
  | some tr, some _ =>
    match tr.route, tr.timestamp with
    | some rt, some ts =>
      routePickupTime ts (jptGet (resolvedPickupLoc p) 0) (jptGet (resolvedPickupLoc p) 1) rt 0
    | _, _ => none
  | _, _ => none

/-- One entry of the `passengerInfos` memo: the fallback chain
(a) timestamp at the first exactly-matching route point when numeric,
(b) `call + wait_min` when both are numbers, (c) `call`. -/
def resolvePassenger (m : List (ℤ × Trip)) (p : Passenger) : PassengerInfo :=
  let call := resolvedCall p
  let pickupTime : JNum :=
    match pickupFromTrips m p with
    | some q => some q
    | none =>
      match call, p.wait_min with
      | some c, some w => some (c + w)
      | _, _ => call
  ⟨call, pickupTime, resolvedPickupLoc p⟩

/-- Trip.js `passengerInfos` memo: early `[]` on an empty passenger list,
otherwise one info per non-null passenger. -/
def passengerInfos (trips : List (Option Trip)) (passengers : List (Option Passenger)) :
    List PassengerInfo :=
  if passengers.length = 0 then []
  else passengers.filterMap (fun op => op.map (resolvePassenger (buildTripByPid trips)))

/-- The per-passenger filter of the `visiblePassengers` memo: visible iff
the pickup location is truthy, `call` and `pickupTime` are numbers and
`call <= time <= pickupTime`; the emitted wait is `pickupTime - call`. -/
def visibleEntry (time : ℚ) (info : PassengerInfo) : Option VisiblePassenger :=
  match info.pickupLoc, info.call, info.pickupTime with
  | some loc, some call, some pt =>
    if call ≤ time ∧ time ≤ pt then some ⟨loc, pt - call⟩ else none
  | _, _, _ => none

/-- Trip.js `visiblePassengers` memo. -/
def visiblePassengers (infos : List PassengerInfo) (time : ℚ) : List VisiblePassenger :=
  infos.filterMap (visibleEntry time)

/-- The per-segment condition of the interpolation loop:
`typeof ts[k] === "number" && typeof ts[k+1] === "number" &&
ts[k] <= time && time < ts[k+1]`. -/
def segCond (ts : List JNum) (time : ℚ) (k : ℕ) : Bool :=
  (jnumAt ts k).isSome && (jnumAt ts (k + 1)).isSome &&
    jle (jnumAt ts k) (some time) && jlt (some time) (jnumAt ts (k + 1))

/-- The in-loop override `if (time >= ts[ts.length - 1]) idx = ts.length - 2`. -/
def lastOverride (ts : List JNum) (time : ℚ) : Bool :=
  jge (some time) (jnumAt ts (ts.length - 1))

/-- The interpolation index loop of Trip.js (identical in the
`match-arcs` and `occupied-arcs` blocks): `fuel` is the number of
remaining iterations, `k` the loop counter, `idx` the mutable index. -/
def interpIdxGo (ts : List JNum) (time : ℚ) : ℕ → ℕ → ℕ → ℕ
  | 0, _, idx => idx
  | fuel + 1, k, idx =>
    if segCond ts time k then k
    else interpIdxGo ts time fuel (k + 1) (if lastOverride ts time then ts.length - 2 else idx)

/-- The value of `idx` after the interpolation loop (`k` ranges over
`0 .. ts.length - 2`, `idx` starts at `0`). -/
def interpIdx (ts : List JNum) (time : ℚ) : ℕ :=
  interpIdxGo ts time (ts.length - 1) 0 0

/-- The index clamp `Math.max(0, Math.min(i, len - 1))` used for every
route/timestamp access of the interpolation block. -/
def clampIdx (i len : ℕ) : ℕ := max 0 (min i (len - 1))

/-- The position-interpolation block shared verbatim by the
`match-arcs` (source lines 391-415) and `occupied-arcs` (lines 462-486)
layer data: pick the segment index, read the clamped endpoints, and when
the segment has numeric strictly increasing endpoints interpolate each
axis with the clamped `alpha`, else keep the earlier point `a`. -/
def interpolate (rt : List JPt) (ts : List JNum) (time : ℚ) : JPt :=
  let idx := interpIdx ts time
  let a := jptAt rt (clampIdx idx rt.length)
  let b := jptAt rt (clampIdx (idx + 1) rt.length)
  let t0 := jnumAt ts (clampIdx idx ts.length)
  let t1 := jnumAt ts (clampIdx (idx + 1) ts.length)
  match t0, t1 with
  | some q0, some q1 =>
    if q0 < q1 then
      let alpha : ℚ := max 0 (min 1 ((time - q0) / (q1 - q0)))
      some [jadd (jptGet a 0) (jmul (jsub (jptGet b 0) (jptGet a 0)) (some alpha)),
            jadd (jptGet a 1) (jmul (jsub (jptGet b 1) (jptGet a 1)) (some alpha))]
    else a
  | _, _ => a

/-- One trip's contribution to the `match-arcs` layer data (dispatch
arcs): guard on array-valued `route`/`timestamp` of length at least 2 and
numeric `ts[0]`, `ts[1]` with `ts[0] <= time <= ts[1]`; the arc runs from
the interpolated position to `route[1]` and is pushed only when both ends
are arrays. -/
def matchArcOfTrip (time : ℚ) (ot : Option Trip) : Option Arc :=
  match ot with
  | none => none
  | some t =>
    match t.route, t.timestamp with
    | some rt, some ts =>
      if rt.length < 2 ∨ ts.length < 2 then none
      else
        let start := jnumAt ts 0
        let pickupTime := jnumAt ts 1
        if start.isSome && pickupTime.isSome && jle start (some time) && jle (some time) pickupTime then
          match interpolate rt ts time, jptAt rt 1 with
          | some c, some pk => some ⟨c, pk⟩
          | _, _ => none
        else none
    | _, _ => none

/-- One trip's contribution to the `occupied-arcs` layer data: same guard
shape with numeric `ts[1]`, `ts[last]` and `ts[1] <= time <= ts[last]`;
the arc runs from the interpolated position to `route[last]`. -/
def occupiedArcOfTrip (time : ℚ) (ot : Option Trip) : Option Arc :=
  match ot with
  | none => none
  | some t =>
    match t.route, t.timestamp with
    | some rt, some ts =>
      if rt.length < 2 ∨ ts.length < 2 then none
      else
        let pickupTime := jnumAt ts 1
        let dropTime := jnumAt ts (ts.length - 1)
        if pickupTime.isSome && dropTime.isSome && jle pickupTime (some time) && jle (some time) dropTime then
          match interpolate rt ts time, jptAt rt (rt.length - 1) with
          | some c, some d => some ⟨c, d⟩
          | _, _ => none
        else none
    | _, _ => none

/-- One trip's contribution to the `destinations` scatterplot data: with
the same guards and the occupied window `ts[1] <= time <= ts[last]`, a
stationary marker at `route[last]` (pushed even when that point value is
itself malformed, as in the source). -/
def destinationEntry (time : ℚ) (ot : Option Trip) : Option JPt :=
  match ot with
  | none => none
  | some t =>
    match t.route, t.timestamp with
    | some rt, some ts =>
      if rt.length < 2 ∨ ts.length < 2 then none
      else
        let pickupTime := jnumAt ts 1
        let endT := jnumAt ts (ts.length - 1)
        if pickupTime.isSome && endT.isSome && jle pickupTime (some time) && jle (some time) endT then
          some (jptAt rt (rt.length - 1))
        else none
    | _, _ => none

/-- The `match-arcs` layer data over the whole trip collection. -/
def matchArcsData (trips : List (Option Trip)) (time : ℚ) : List Arc :=
  if trips.length = 0 then [] else trips.filterMap (matchArcOfTrip time)

/-- The `occupied-arcs` layer data over the whole trip collection. -/
def occupiedArcsData (trips : List (Option Trip)) (time : ℚ) : List Arc :=
  if trips.length = 0 then [] else trips.filterMap (occupiedArcOfTrip time)

/-- The `destinations` layer data over the whole trip collection. -/
def destinationsData (trips : List (Option Trip)) (time : ℚ) : List JPt :=
  if trips.length = 0 then [] else trips.filterMap (destinationEntry time)

/-- A trip is malformed in the sense of the error-handling spec: `route`
or `timestamp` missing/non-array, either shorter than 2, or the pickup
boundary `timestamp[1]` non-numeric. -/
def malformedTrip (t : Trip) : Prop :=
  match t.route, t.timestamp with
  | some rt, some ts => rt.length < 2 ∨ ts.length < 2 ∨ jnumAt ts 1 = none
  | _, _ => True

/-- A fully valid route point value `[x, y]`. -/
def mkJPt (p : ℚ × ℚ) : JPt := some [some p.1, some p.2]

/-! ### Basic facts about the JS array model -/

theorem jnumAt_map_some (qs : List ℚ) (k : ℕ) (h : k < qs.length) :
    jnumAt (qs.map some) k = some (qs.getD k 0) := by
  simp [jnumAt, List.getElem?_map, List.getElem?_eq_getElem h, List.getD]

theorem jnumAt_map_oob (qs : List ℚ) (k : ℕ) (h : qs.length ≤ k) :
    jnumAt (qs.map some) k = none := by
  simp [jnumAt, List.getElem?_eq_none (by simpa using h)]

theorem jptAt_map_mk (ps : List (ℚ × ℚ)) (k : ℕ) (h : k < ps.length) :
    jptAt (ps.map mkJPt) k = mkJPt (ps.getD k (0, 0)) := by
  simp [jptAt, List.getElem?_map, List.getElem?_eq_getElem h, List.getD]

theorem clampIdx_lt (i len : ℕ) (h : 1 ≤ len) : clampIdx i len < len := by
  simp only [clampIdx, Nat.max_def, Nat.min_def]
  split <;> split <;> omega

theorem clampIdx_of_lt (i len : ℕ) (h : i + 1 ≤ len) : clampIdx i len = i := by
  simp only [clampIdx, Nat.max_def, Nat.min_def]
  split <;> split <;> omega

/-! ### C10 -/

/-- C10: in the interpolation block of both arc layers, every route and
timestamp access uses the clamp `Math.max(0, Math.min(idx, len - 1))`, so
for every trip passing the length guard (length at least 2 on both
arrays, even when the two lengths differ) all four reads used to build
the arc source are in bounds: the clamped index is below the array length
and the corresponding `getElem?` read is `some`. -/
theorem c10_clamped_indexing_safe (rt : List JPt) (ts : List JNum) (time : ℚ)
    (hr : 2 ≤ rt.length) (ht : 2 ≤ ts.length) :
    (clampIdx (interpIdx ts time) rt.length < rt.length ∧
     clampIdx (interpIdx ts time + 1) rt.length < rt.length ∧
     clampIdx (interpIdx ts time) ts.length < ts.length ∧
     clampIdx (interpIdx ts time + 1) ts.length < ts.length) ∧
    (rt[clampIdx (interpIdx ts time) rt.length]?.isSome ∧
     rt[clampIdx (interpIdx ts time + 1) rt.length]?.isSome ∧
     ts[clampIdx (interpIdx ts time) ts.length]?.isSome ∧
     ts[clampIdx (interpIdx ts time + 1) ts.length]?.isSome) := by
  have h1 := clampIdx_lt (interpIdx ts time) rt.length (by omega)
  have h2 := clampIdx_lt (interpIdx ts time + 1) rt.length (by omega)
  have h3 := clampIdx_lt (interpIdx ts time) ts.length (by omega)
  have h4 := clampIdx_lt (interpIdx ts time + 1) ts.length (by omega)
  refine ⟨⟨h1, h2, h3, h4⟩, ?_, ?_, ?_, ?_⟩ <;>
    simp [List.getElem?_eq_getElem, h1, h2, h3, h4]

/-- Witness for C10 at a concrete malshaped trip: route length 3,
timestamp length 2. -/
theorem c10_clamped_indexing_safe_witness :
    clampIdx (interpIdx [some 0, some 5] 3) 3 < 3 ∧
    ([mkJPt (0, 0), mkJPt (1, 1), mkJPt (2, 2)] :
      List JPt)[clampIdx (interpIdx [some 0, some 5] 3) 3]?.isSome :=
  ⟨(c10_clamped_indexing_safe [mkJPt (0, 0), mkJPt (1, 1), mkJPt (2, 2)] [some 0, some 5] 3
      (by norm_num) (by norm_num)).1.1,
   (c10_clamped_indexing_safe [mkJPt (0, 0), mkJPt (1, 1), mkJPt (2, 2)] [some 0, some 5] 3
      (by norm_num) (by norm_num)).2.1⟩

/-! ### C6 -/

/-- C6: `waitToColor` implements five fixed left-closed/right-open minute
buckets, with negative and missing wait values clamped to 0 before
bucketing; `wait = 15` falls in the second bucket and `wait = 60` in the
fifth. -/
theorem c6_wait_color_buckets :
    (∀ q : ℚ, 0 ≤ q → q < 15 → waitToColor (some q) = [255, 255, 255]) ∧
    (∀ q : ℚ, 15 ≤ q → q < 30 → waitToColor (some q) = [255, 230, 230]) ∧
    (∀ q : ℚ, 30 ≤ q → q < 45 → waitToColor (some q) = [255, 190, 190]) ∧
    (∀ q : ℚ, 45 ≤ q → q < 60 → waitToColor (some q) = [255, 140, 140]) ∧
    (∀ q : ℚ, 60 ≤ q → waitToColor (some q) = [200, 0, 0]) ∧
    (∀ q : ℚ, q < 0 → waitToColor (some q) = waitToColor (some 0)) ∧
    waitToColor none = waitToColor (some 0) ∧
    waitToColor (some 15) = [255, 230, 230] ∧
    waitToColor (some 60) = [200, 0, 0] := by
  have base : ∀ q : ℚ, 0 ≤ q → waitToColor (some q) =
      (if q < 15 then [255, 255, 255]
       else if q < 30 then [255, 230, 230]
       else if q < 45 then [255, 190, 190]
       else if q < 60 then [255, 140, 140]
       else [200, 0, 0]) := by
    intro q hq
    simp only [waitToColor, Option.getD_some, max_eq_right hq]
  refine ⟨?_, ?_, ?_, ?_, ?_, ?_, ?_, ?_, ?_⟩
  · intro q h0 h15
    rw [base q h0, if_pos h15]
  · intro q h15 h30
    rw [base q (by linarith), if_neg (by linarith), if_pos h30]
  · intro q h30 h45
    rw [base q (by linarith), if_neg (by linarith), if_neg (by linarith), if_pos h45]
  · intro q h45 h60
    rw [base q (by linarith), if_neg (by linarith), if_neg (by linarith), if_neg (by linarith),
      if_pos h60]
  · intro q h60
    rw [base q (by linarith), if_neg (by linarith), if_neg (by linarith), if_neg (by linarith),
      if_neg (by linarith)]
  · intro q hq
    simp only [waitToColor, Option.getD_some, max_eq_left (le_of_lt hq), max_self]
  · simp only [waitToColor, Option.getD_none, Option.getD_some, max_self]
  · rw [base 15 (by norm_num), if_neg (by norm_num), if_pos (by norm_num)]
  · rw [base 60 (by norm_num), if_neg (by norm_num), if_neg (by norm_num), if_neg (by norm_num),
      if_neg (by norm_num)]

/-- Witness for C6: a concrete wait in each of the five buckets. -/
theorem c6_wait_color_buckets_witness :
    waitToColor (some 10) = [255, 255, 255] ∧
    waitToColor (some 20) = [255, 230, 230] ∧
    waitToColor (some 40) = [255, 190, 190] ∧
    waitToColor (some 59) = [255, 140, 140] ∧
    waitToColor (some 100) = [200, 0, 0] ∧
    waitToColor (some (-3)) = waitToColor (some 0) :=
  ⟨c6_wait_color_buckets.1 10 (by norm_num) (by norm_num),
   c6_wait_color_buckets.2.1 20 (by norm_num) (by norm_num),
   c6_wait_color_buckets.2.2.1 40 (by norm_num) (by norm_num),
   c6_wait_color_buckets.2.2.2.1 59 (by norm_num) (by norm_num),
   c6_wait_color_buckets.2.2.2.2.1 100 (by norm_num),
   c6_wait_color_buckets.2.2.2.2.2.1 (-3) (by norm_num)⟩

/-! ### C2 -/

/-- C2: for a resolved passenger info with numeric `call`, numeric
`pickupTime` and an existing pickup location, the passenger is visible at
time `t` iff `call <= t <= pickupTime` (inclusive at both ends), and the
emitted wait equals `pickupTime - call`, independent of `t`; every such
entry is part of the per-frame `visiblePassengers` collection. -/
theorem c2_passenger_visibility (t c p : ℚ) (loc : List JNum) :
    ((visibleEntry t ⟨some c, some p, some loc⟩).isSome ↔ (c ≤ t ∧ t ≤ p)) ∧
    (∀ v, visibleEntry t ⟨some c, some p, some loc⟩ = some v →
      v.location = loc ∧ v.wait = p - c) ∧
    (∀ (infos : List PassengerInfo) (info : PassengerInfo) v, info ∈ infos →
      visibleEntry t info = some v → v ∈ visiblePassengers infos t) := by
  refine ⟨?_, ?_, ?_⟩
  · by_cases h : c ≤ t ∧ t ≤ p
    · simp [visibleEntry, h]
    · simp [visibleEntry, h]
  · intro v hv
    by_cases h : c ≤ t ∧ t ≤ p
    · simp only [visibleEntry, if_pos h, Option.some.injEq] at hv
      rw [← hv]
      exact ⟨rfl, rfl⟩
    · simp [visibleEntry, if_neg h] at hv
  · intro infos info v hmem hv
    exact List.mem_filterMap.mpr ⟨info, hmem, hv⟩

/-- Witness for C2 at `call = 100`, `pickupTime = 130`, `t = 115`. -/
theorem c2_passenger_visibility_witness :
    (visibleEntry 115 ⟨some 100, some 130, some []⟩).isSome ∧
    (⟨[], 30⟩ : VisiblePassenger) ∈ visiblePassengers [⟨some 100, some 130, some []⟩] 115 :=
  ⟨(c2_passenger_visibility 115 100 130 []).1.mpr (by norm_num),
   (c2_passenger_visibility 115 100 130 []).2.2 [⟨some 100, some 130, some []⟩]
     ⟨some 100, some 130, some []⟩ ⟨[], 30⟩ (by simp) (by norm_num [visibleEntry])⟩

/-! ### C7 -/

/-- C7 counterexample: from the in-range clock value `maxTime [] [] = 480`
the next step produces a value strictly above the derived upper bound, so
a frame does observe a clock value above the bound (the reset only
happens one step later); this refutes the claim that the observed clock
value never lies above the derived upper bound. -/
theorem c7_clock_wrap_counterexample :
    maxTime [] [] = 480 ∧
    returnAnimationTime (maxTime [] []) (maxTime [] []) > maxTime [] [] := by
  have h : maxTime [] [] = 480 := by
    norm_num [maxTime, dataMaxFromTrips, dataMaxFromPassengers, minTime]
  refine ⟨h, ?_⟩
  rw [h]
  norm_num [returnAnimationTime, animationSpeed, minTime]

/-- C7 amended: a step from a value strictly above the bound resets
exactly to `minTime` (no overshoot retained); a step from a value at or
below the bound advances by exactly `0.01 * animationSpeed`, so the clock
can exceed the bound by at most one increment and the interval
`(-inf, maxT + 0.01 * animationSpeed]` is invariant under stepping when
`minTime <= maxT`. -/
theorem c7_clock_wrap_amended :
    (∀ maxT t : ℚ, maxT < t → returnAnimationTime maxT t = minTime) ∧
    (∀ maxT t : ℚ, t ≤ maxT → returnAnimationTime maxT t = t + 1 / 100 * animationSpeed) ∧
    (∀ maxT t : ℚ, t ≤ maxT →
      returnAnimationTime maxT t ≤ maxT + 1 / 100 * animationSpeed) ∧
    (∀ maxT t : ℚ, minTime ≤ maxT → t ≤ maxT + 1 / 100 * animationSpeed →
      returnAnimationTime maxT t ≤ maxT + 1 / 100 * animationSpeed) := by
  refine ⟨?_, ?_, ?_, ?_⟩
  · intro maxT t h
    simp [returnAnimationTime, h]
  · intro maxT t h
    rw [returnAnimationTime, if_neg (by linarith)]
  · intro maxT t h
    rw [returnAnimationTime, if_neg (by linarith)]
    linarith
  · intro maxT t hmin h
    rw [returnAnimationTime]
    split
    · rw [minTime] at hmin ⊢
      rw [animationSpeed]
      linarith
    · linarith

/-- Witness for C7 amended: stepping from 500 with bound 480 yields
exactly `minTime = 420`; stepping from 480 yields 480.005. -/
theorem c7_clock_wrap_amended_witness :
    returnAnimationTime 480 500 = minTime ∧
    returnAnimationTime 480 480 = 480 + 1 / 100 * animationSpeed :=
  ⟨c7_clock_wrap_amended.1 480 500 (by norm_num),
   c7_clock_wrap_amended.2.1 480 480 (by norm_num)⟩

/-! ### C3 -/

/-- C3 counterexample: with no trips at all and a single passenger event
whose last timestamp is 600, the derived upper bound is 600, not
`minTime + 60 = 480`; passenger events do enter the bound, refuting the
claim that `domainMax` is taken over trips only. -/
theorem c3_time_range_counterexample :
    maxTime [] [some ⟨none, some [some 600], none, none, none⟩] = 600 ∧
    (600 : ℚ) ≠ minTime + 60 := by
  constructor
  · norm_num [maxTime, dataMaxFromTrips, dataMaxFromPassengers, jnumAt, minTime]
  · norm_num [minTime]

/-- C3 amended: the slider/clock upper bound equals
`max(minTime + 60, dataMaxFromTrips, dataMaxFromPassengers)`, i.e. the
passenger events' last timestamps participate as well; the empty dataset
gives `minTime + 60`, the floor is enforced whenever both data maxima are
at most `minTime + 60`, and the trips' maximum wins when it dominates
both the floor and the passengers' maximum. -/
theorem c3_time_range_amended :
    (∀ trips passengers, maxTime trips passengers =
      max (minTime + 60) (max (dataMaxFromTrips trips) (dataMaxFromPassengers passengers))) ∧
    maxTime [] [] = minTime + 60 ∧
    (∀ trips passengers, dataMaxFromTrips trips ≤ minTime + 60 →
      dataMaxFromPassengers passengers ≤ minTime + 60 →
      maxTime trips passengers = minTime + 60) ∧
    (∀ trips passengers, minTime + 60 ≤ dataMaxFromTrips trips →
      dataMaxFromPassengers passengers ≤ dataMaxFromTrips trips →
      maxTime trips passengers = dataMaxFromTrips trips) := by
  have key : ∀ trips passengers, maxTime trips passengers =
      max (minTime + 60) (max (dataMaxFromTrips trips) (dataMaxFromPassengers passengers)) := by
    intro trips passengers
    rw [maxTime]
    have h : minTime <
        max (minTime + 60) (max (dataMaxFromTrips trips) (dataMaxFromPassengers passengers)) := by
      have := le_max_left (minTime + 60)
        (max (dataMaxFromTrips trips) (dataMaxFromPassengers passengers))
      linarith
    simp only [if_pos h]
  refine ⟨key, ?_, ?_, ?_⟩
  · rw [key]
    have h1 : dataMaxFromTrips [] = 0 := by norm_num [dataMaxFromTrips]
    have h2 : dataMaxFromPassengers [] = 0 := by norm_num [dataMaxFromPassengers]
    rw [h1, h2, minTime]
    norm_num
  · intro trips passengers ht hp
    rw [key, max_eq_left]
    exact max_le ht hp
  · intro trips passengers ht hp
    rw [key, max_comm, max_eq_left, max_eq_left hp]
    rw [max_eq_left hp]
    exact ht

/-- Witness for C3 amended: a trip dropping off at 920 dominates both the
floor and the (empty) passengers, so the bound is 920. -/
theorem c3_time_range_amended_witness :
    maxTime [some ⟨none, none, some [some 420, some 920]⟩] [] = 920 := by
  have hd : dataMaxFromTrips [some ⟨none, none, some [some 420, some 920]⟩] = 920 := by
    simp only [dataMaxFromTrips, List.foldl_cons, List.foldl_nil, jnumAt]
    norm_num
  have h := c3_time_range_amended.2.2.2 [some ⟨none, none, some [some 420, some 920]⟩] []
    (by rw [hd, minTime]; norm_num)
    (by rw [hd]; norm_num [dataMaxFromPassengers])
  rw [h, hd]

/-! ### C9 -/

/-- The value computed by the hour branch of
`returnAnimationDisplayTime` for a nonnegative rounded clock:
`parseInt((r / 60) % 24)` equals the integer `(r / 60) % 24`. -/
theorem hour_formula (r : ℤ) (hr : 0 ≤ r) :
    jsTrunc (jsMod ((r : ℚ) / 60) 24) = (r / 60) % 24 := by
  have hfloor_q : ⌊(r : ℚ) / 60⌋ = r / 60 := by
    have := Rat.floor_intCast_div_natCast r 60
    simpa using this
  have hfloor_q24 : ⌊((r : ℚ) / 60) / 24⌋ = r / 1440 := by
    rw [div_div]
    have := Rat.floor_intCast_div_natCast r 1440
    norm_num at this ⊢
    exact this
  have h1 : jsTrunc (((r : ℚ) / 60) / 24) = r / 1440 := by
    rw [jsTrunc, if_pos (by positivity), hfloor_q24]
  rw [jsMod, h1]
  have h2 : (0 : ℚ) ≤ (r : ℚ) / 60 - 24 * ((r / 1440 : ℤ) : ℚ) := by
    have hf := Int.fract_nonneg (((r : ℚ) / 60) / 24)
    rw [Int.fract, hfloor_q24] at hf
    linarith
  rw [jsTrunc, if_pos h2]
  have h3 : (24 : ℚ) * ((r / 1440 : ℤ) : ℚ) = ((24 * (r / 1440) : ℤ) : ℚ) := by
    push_cast
    ring
  rw [h3, Int.floor_sub_int, hfloor_q]
  omega

/-- C9 counterexample: at the reachable clock value `t = 479.7` the code
displays hour "08" (it rounds `t` before dividing by 60), while the
claimed formula `floor(t / 60) mod 24` gives hour "07". -/
theorem c9_display_time_counterexample :
    (returnAnimationDisplayTime (4797 / 10)).1 = "08" ∧
    addZeroFill (toString (⌊(4797 / 10 : ℚ) / 60⌋ % 24)) = "07" ∧
    ("08" : String) ≠ "07" := by
  refine ⟨?_, ?_, by decide⟩
  · have hr : jsRound (4797 / 10) = 480 := by norm_num [jsRound]
    have h := hour_formula 480 (by norm_num)
    rw [returnAnimationDisplayTime]
    simp only [hr, h]
    decide
  · have h : ⌊(4797 / 10 : ℚ) / 60⌋ = 7 := by norm_num
    rw [h]
    decide

/-- C9 amended: for every nonnegative clock value `t` the displayed
reading is hour `floor(round(t) / 60) mod 24` and minute
`round(t) mod 60` (the code rounds once, before the division by 60,
rather than flooring `t / 60` directly), each zero-padded to two
digits. -/
theorem c9_display_time_amended (t : ℚ) (h : 0 ≤ t) :
    returnAnimationDisplayTime t =
      (addZeroFill (toString ((jsRound t / 60) % 24)),
       addZeroFill (toString (jsRound t % 60))) := by
  have hr : 0 ≤ jsRound t := Int.le_floor.mpr (by push_cast; linarith)
  rw [returnAnimationDisplayTime, hour_formula (jsRound t) hr,
    Int.tmod_eq_emod hr (by norm_num)]

/-- Witness for C9 amended at `t = 500`: the display is 08:20. -/
theorem c9_display_time_amended_witness :
    returnAnimationDisplayTime 500 =
      (addZeroFill (toString ((jsRound 500 / 60) % 24)),
       addZeroFill (toString (jsRound 500 % 60))) ∧
    returnAnimationDisplayTime 500 = ("08", "20") := by
  have h := c9_display_time_amended 500 (by norm_num)
  refine ⟨h, ?_⟩
  rw [h]
  have hr : jsRound (500 : ℚ) = 500 := by norm_num [jsRound]
  rw [hr]
  decide

/-! ### C8 -/

theorem matchArcsData_eq_filterMap (trips : List (Option Trip)) (time : ℚ) :
    matchArcsData trips time = trips.filterMap (matchArcOfTrip time) := by
  rw [matchArcsData]
  split
  · rename_i h
    rw [List.length_eq_zero] at h
    rw [h]
    rfl
  · rfl

theorem occupiedArcsData_eq_filterMap (trips : List (Option Trip)) (time : ℚ) :
    occupiedArcsData trips time = trips.filterMap (occupiedArcOfTrip time) := by
  rw [occupiedArcsData]
  split
  · rename_i h
    rw [List.length_eq_zero] at h
    rw [h]
    rfl
  · rfl

theorem destinationsData_eq_filterMap (trips : List (Option Trip)) (time : ℚ) :
    destinationsData trips time = trips.filterMap (destinationEntry time) := by
  rw [destinationsData]
  split
  · rename_i h
    rw [List.length_eq_zero] at h
    rw [h]
    rfl
  · rfl

theorem filterMap_insert_none {α : Type} (f : Option Trip → Option α)
    (tr : Trip) (hf : f (some tr) = none) (pre post : List (Option Trip)) :
    (pre ++ some tr :: post).filterMap f = (pre ++ post).filterMap f := by
  rw [List.filterMap_append, List.filterMap_append, List.filterMap_cons, hf]

/-- C8: a trip whose `route` or `timestamp` is missing or shorter than 2,
or whose pickup-boundary timestamp `timestamp[1]` is non-numeric,
contributes nothing to any of the three per-frame trip outputs
(dispatch arcs, occupied arcs, destination markers) at any time — the
embedding is total, so no error is raised — and inserting such a trip
anywhere in the collection leaves the three outputs produced for the
other trips unchanged. -/
theorem c8_malformed_trip_excluded (tr : Trip) (time : ℚ) (h : malformedTrip tr) :
    matchArcOfTrip time (some tr) = none ∧
    occupiedArcOfTrip time (some tr) = none ∧
    destinationEntry time (some tr) = none ∧
    (∀ pre post : List (Option Trip),
      matchArcsData (pre ++ some tr :: post) time = matchArcsData (pre ++ post) time ∧
      occupiedArcsData (pre ++ some tr :: post) time = occupiedArcsData (pre ++ post) time ∧
      destinationsData (pre ++ some tr :: post) time = destinationsData (pre ++ post) time) := by
  obtain ⟨pid, route, ts⟩ := tr
  have hmain : matchArcOfTrip time (some ⟨pid, route, ts⟩) = none ∧
      occupiedArcOfTrip time (some ⟨pid, route, ts⟩) = none ∧
      destinationEntry time (some ⟨pid, route, ts⟩) = none := by
    match route, ts with
    | none, none => exact ⟨rfl, rfl, rfl⟩
    | none, some ts => exact ⟨rfl, rfl, rfl⟩
    | some rt, none => exact ⟨rfl, rfl, rfl⟩
    | some rt, some ts =>
      rw [malformedTrip] at h
      by_cases hlen : rt.length < 2 ∨ ts.length < 2
      · refine ⟨?_, ?_, ?_⟩ <;> simp [matchArcOfTrip, occupiedArcOfTrip, destinationEntry, hlen]
      · have h1 : jnumAt ts 1 = none := by tauto
        refine ⟨?_, ?_, ?_⟩ <;>
          simp [matchArcOfTrip, occupiedArcOfTrip, destinationEntry, hlen, h1]
  refine ⟨hmain.1, hmain.2.1, hmain.2.2, ?_⟩
  intro pre post
  refine ⟨?_, ?_, ?_⟩
  · rw [matchArcsData_eq_filterMap, matchArcsData_eq_filterMap]
    exact filterMap_insert_none _ _ hmain.1 pre post
  · rw [occupiedArcsData_eq_filterMap, occupiedArcsData_eq_filterMap]
    exact filterMap_insert_none _ _ hmain.2.1 pre post
  · rw [destinationsData_eq_filterMap, destinationsData_eq_filterMap]
    exact filterMap_insert_none _ _ hmain.2.2 pre post

/-- Witness for C8: a trip with both fields missing, and a trip with a
long enough route but a non-numeric pickup timestamp, both vanish from
the outputs. -/
theorem c8_malformed_trip_excluded_witness :
    matchArcOfTrip 10 (some ⟨none, none, none⟩) = none ∧
    occupiedArcOfTrip 10 (some ⟨none, some [mkJPt (0, 0), mkJPt (1, 1)], some [some 0, none]⟩) = none ∧
    matchArcsData [some ⟨none, none, none⟩] 10 = matchArcsData [] 10 :=
  ⟨(c8_malformed_trip_excluded ⟨none, none, none⟩ 10 trivial).1,
   (c8_malformed_trip_excluded ⟨none, some [mkJPt (0, 0), mkJPt (1, 1)], some [some 0, none]⟩ 10
     (by rw [malformedTrip]; right; right; rfl)).2.1,
   by
     have h := (c8_malformed_trip_excluded ⟨none, none, none⟩ 10 trivial).2.2.2 [] []
     simpa using h.1⟩

/-! ### C1 -/

theorem jptAt_map_isSome (ps : List (ℚ × ℚ)) (i : ℕ) (h : i < ps.length) :
    (jptAt (ps.map mkJPt) i).isSome := by
  rw [jptAt_map_mk ps i h, mkJPt]
  rfl

theorem interpolate_map_isSome (ps : List (ℚ × ℚ)) (ts : List JNum) (time : ℚ)
    (hp : 1 ≤ ps.length) :
    (interpolate (ps.map mkJPt) ts time).isSome := by
  simp only [interpolate]
  have ha : (jptAt (ps.map mkJPt)
      (clampIdx (interpIdx ts time) (ps.map mkJPt).length)).isSome := by
    apply jptAt_map_isSome
    have h1 : (ps.map mkJPt).length = ps.length := List.length_map _ _
    have h2 := clampIdx_lt (interpIdx ts time) (ps.map mkJPt).length (by omega)
    omega
  cases h0 : jnumAt ts (clampIdx (interpIdx ts time) ts.length) with
  | none => simpa [h0] using ha
  | some u0 =>
    cases h1 : jnumAt ts (clampIdx (interpIdx ts time + 1) ts.length) with
    | none => simpa [h0, h1] using ha
    | some u1 =>
      simp only [h0, h1]
      split
      · rfl
      · exact ha

/-- C1 counterexample: the spec's own example trip
(`timestamp = [0, 10, 20]`, `route = [[0,0],[1,1],[2,2]]`) at the exact
pickup instant `t = 10` emits a dispatch arc (from `[1,1]` to `[1,1]`) in
addition to the occupied arc, because the code keeps the trip in the
dispatch window when `time <= timestamp[1]` (inclusive); this refutes the
claimed right-exclusive window / Occupied-only tie-break. -/
theorem c1_phase_tiebreak_counterexample :
    matchArcOfTrip 10 (some ⟨none, some [mkJPt (0, 0), mkJPt (1, 1), mkJPt (2, 2)],
      some [some 0, some 10, some 20]⟩) =
      some ⟨[some 1, some 1], [some 1, some 1]⟩ ∧
    occupiedArcOfTrip 10 (some ⟨none, some [mkJPt (0, 0), mkJPt (1, 1), mkJPt (2, 2)],
      some [some 0, some 10, some 20]⟩) =
      some ⟨[some 1, some 1], [some 2, some 2]⟩ := by
  have hidx : interpIdx [some 0, some 10, some 20] 10 = 1 := by
    norm_num [interpIdx, interpIdxGo, segCond, lastOverride, jnumAt, jle, jlt, jge]
  have hinterp : interpolate [mkJPt (0, 0), mkJPt (1, 1), mkJPt (2, 2)]
      [some 0, some 10, some 20] 10 = some [some 1, some 1] := by
    simp only [interpolate, hidx]
    norm_num [clampIdx, jnumAt, jptAt, jptGet, jadd, jsub, jmul, mkJPt]
  constructor
  · simp only [matchArcOfTrip, hinterp]
    norm_num [jnumAt, jptAt, jle, mkJPt]
  · simp only [occupiedArcOfTrip, hinterp]
    norm_num [jnumAt, jptAt, jle, mkJPt]

/-- C1 amended: for a trip with array route/timestamps of length at least
2 and numeric timestamps, the dispatch window is inclusive at both ends
(`timestamp[0] <= t <= timestamp[1]`), and the occupied window is
`timestamp[1] <= t <= timestamp[last]`; consequently at the exact instant
`t = timestamp[1]` the trip emits BOTH a dispatch arc and an occupied arc
(and its destination marker), rather than only the occupied arc. -/
theorem c1_phase_tiebreak_amended (q0 q1 : ℚ) (qrest : List ℚ) (p0 p1 : ℚ × ℚ)
    (prest : List (ℚ × ℚ)) (t : ℚ) (pid : Option ℤ) :
    ((matchArcOfTrip t (some ⟨pid, some ((p0 :: p1 :: prest).map mkJPt),
        some ((q0 :: q1 :: qrest).map some)⟩)).isSome ↔ (q0 ≤ t ∧ t ≤ q1)) ∧
    ((occupiedArcOfTrip t (some ⟨pid, some ((p0 :: p1 :: prest).map mkJPt),
        some ((q0 :: q1 :: qrest).map some)⟩)).isSome ↔
      (q1 ≤ t ∧ t ≤ (q1 :: qrest).getD qrest.length 0)) ∧
    ((destinationEntry t (some ⟨pid, some ((p0 :: p1 :: prest).map mkJPt),
        some ((q0 :: q1 :: qrest).map some)⟩)).isSome ↔
      (q1 ≤ t ∧ t ≤ (q1 :: qrest).getD qrest.length 0)) := by
  have hTS0 : jnumAt ((q0 :: q1 :: qrest).map some) 0 = some q0 := rfl
  have hTS1 : jnumAt ((q0 :: q1 :: qrest).map some) 1 = some q1 := by simp [jnumAt]
  have hTSlen : ((q0 :: q1 :: qrest).map some).length = qrest.length + 2 := by simp
  have hTSlast : jnumAt ((q0 :: q1 :: qrest).map some)
      (((q0 :: q1 :: qrest).map some).length - 1) =
      some ((q1 :: qrest).getD qrest.length 0) := by
    rw [hTSlen]
    show jnumAt ((q0 :: q1 :: qrest).map some) (qrest.length + 1) = _
    rw [jnumAt_map_some _ _ (by simp)]
    simp
  have hguard : ¬(((p0 :: p1 :: prest).map mkJPt).length < 2 ∨
      ((q0 :: q1 :: qrest).map some).length < 2) := by
    simp
  have hpk : jptAt ((p0 :: p1 :: prest).map mkJPt) 1 = mkJPt p1 := by simp [jptAt]
  have hdest : (jptAt ((p0 :: p1 :: prest).map mkJPt)
      (((p0 :: p1 :: prest).map mkJPt).length - 1)).isSome := by
    apply jptAt_map_isSome
    simp
  have hint := interpolate_map_isSome (p0 :: p1 :: prest) ((q0 :: q1 :: qrest).map some) t
    (by simp)
  obtain ⟨c, hc⟩ := Option.isSome_iff_exists.mp hint
  obtain ⟨d, hd⟩ := Option.isSome_iff_exists.mp hdest
  refine ⟨?_, ?_, ?_⟩
  · simp only [matchArcOfTrip, if_neg hguard, hTS0, hTS1, hc, hpk, mkJPt]
    by_cases hw : q0 ≤ t ∧ t ≤ q1
    · simp [jle, hw.1, hw.2]
    · rw [Classical.not_and_iff_or_not_not] at hw
      rcases hw with hw | hw
      · simp [jle, hw]
      · simp [jle, hw]
  · simp only [occupiedArcOfTrip, if_neg hguard, hTS1, hTSlast, hc, hd]
    by_cases hw : q1 ≤ t ∧ t ≤ (q1 :: qrest).getD qrest.length 0
    · simp [jle, hw.1, hw.2]
    · rw [Classical.not_and_iff_or_not_not] at hw
      rcases hw with hw | hw
      · simp [jle, hw]
      · simp [jle, hw]
  · simp only [destinationEntry, if_neg hguard, hTS1, hTSlast]
    by_cases hw : q1 ≤ t ∧ t ≤ (q1 :: qrest).getD qrest.length 0
    · simp [jle, hw.1, hw.2]
    · rw [Classical.not_and_iff_or_not_not] at hw
      rcases hw with hw | hw
      · simp [jle, hw]
      · simp [jle, hw]

/-! ### C5 -/

theorem tripByPid_fold_find (trips : List (Option Trip)) (m : List (ℤ × Trip)) (pid : ℤ) :
    (trips.foldl
      (fun m ot =>
        match ot with
        | none => m
        | some t =>
          match t.passenger_id with
          | none => m
          | some pid2 =>
            if (m.find? (fun e => e.1 == pid2)).isSome then m else m ++ [(pid2, t)])
      m).find? (fun e => e.1 == pid) =
    ((m.find? (fun e => e.1 == pid)).or
      (((trips.filterMap id).find? (fun t => t.passenger_id == some pid)).map
        (fun t => (pid, t)))) := by
  induction trips generalizing m with
  | nil => simp
  | cons ot rest ih =>
    cases ot with
    | none =>
      rw [List.foldl_cons, ih]
      rfl
    | some t =>
      have hfm : List.filterMap id (some t :: rest) = t :: List.filterMap id rest := by simp
      rw [List.foldl_cons, ih, hfm]
      cases hpid : t.passenger_id with
      | none =>
        simp only [hpid]
        rw [List.find?_cons_of_neg]
        simp [hpid]
      | some pid2 =>
        simp only [hpid]
        by_cases heq : pid2 = pid
        · subst heq
          by_cases hmem : (m.find? (fun e => e.1 == pid2)).isSome
          · rw [if_pos hmem]
            obtain ⟨e, he⟩ := Option.isSome_iff_exists.mp hmem
            rw [he]
            rfl
          · rw [if_neg hmem, List.find?_append]
            have hm : m.find? (fun e => e.1 == pid2) = none := by
              cases h : m.find? (fun e => e.1 == pid2)
              · rfl
              · rw [h] at hmem
                simp at hmem
            have hhead : List.find? (fun e => e.1 == pid2) [(pid2, t)] = some (pid2, t) := by
              simp
            have hrhs : List.find? (fun u => u.passenger_id == some pid2)
                (t :: List.filterMap id rest) = some t :=
              List.find?_cons_of_pos _ (by simp [hpid])
            rw [hm, hhead, hrhs]
            rfl
        · by_cases hmem : (m.find? (fun e => e.1 == pid2)).isSome
          · rw [if_pos hmem]
            have hrhs : List.find? (fun u => u.passenger_id == some pid)
                (t :: List.filterMap id rest) =
                List.find? (fun u => u.passenger_id == some pid) (List.filterMap id rest) :=
              List.find?_cons_of_neg _ (by simp [hpid, heq])
            rw [hrhs]
          · rw [if_neg hmem, List.find?_append]
            have happ : List.find? (fun e => e.1 == pid) [(pid2, t)] = none := by
              simp [heq]
            have hrhs : List.find? (fun u => u.passenger_id == some pid)
                (t :: List.filterMap id rest) =
                List.find? (fun u => u.passenger_id == some pid) (List.filterMap id rest) :=
              List.find?_cons_of_neg _ (by simp [hpid, heq])
            rw [happ, hrhs]
            cases h : List.find? (fun e => e.1 == pid) m <;> rfl

theorem routePickupTime_eq_findIdx (ts : List JNum) (px0 px1 : JNum) (rt : List JPt) (i : ℕ) :
    routePickupTime ts px0 px1 rt i =
      (rt.findIdx? (ptMatches px0 px1) i).bind (fun j => jnumAt ts j) := by
  induction rt generalizing i with
  | nil => rfl
  | cons pt rest ih =>
    cases pt with
    | none =>
      simp only [routePickupTime, List.findIdx?_cons]
      rw [ih]
      have h : ptMatches px0 px1 none = false := rfl
      rw [h]
      simp
    | some coords =>
      simp only [routePickupTime, List.findIdx?_cons]
      by_cases hlen : coords.length < 2
      · rw [if_pos hlen, ih]
        have h : ptMatches px0 px1 (some coords) = false := by
          have hd : decide (2 ≤ coords.length) = false := by
            rw [decide_eq_false_iff_not]
            omega
          simp [ptMatches, hd]
        rw [h]
        simp
      · rw [if_neg hlen]
        by_cases hm : (jeq (jnumAt coords 0) px0 && jeq (jnumAt coords 1) px1) = true
        · rw [if_pos hm]
          have h : ptMatches px0 px1 (some coords) = true := by
            simp only [ptMatches, Bool.and_eq_true, decide_eq_true_eq]
            rw [Bool.and_eq_true] at hm
            exact ⟨⟨by omega, hm.1⟩, hm.2⟩
          rw [h]
          simp
        · rw [if_neg hm, ih]
          have h : ptMatches px0 px1 (some coords) = false := by
            simp only [ptMatches]
            rw [Bool.and_assoc]
            have hb : (jeq (jnumAt coords 0) px0 && jeq (jnumAt coords 1) px1) = false := by
              revert hm
              cases jeq (jnumAt coords 0) px0 && jeq (jnumAt coords 1) px1
              · intro h5
                rfl
              · intro h5
                exact absurd rfl h5
            rw [hb, Bool.and_false]
          rw [h]
          simp

/-- C5 counterexample: trip `{passenger_id: 1, route: [[0,0],[0,0]],
timestamp: ["x", 7]}` (first timestamp non-numeric) matched with passenger
`{passenger_id: 1, timestamp: [100], loc: [[0,0]]}`. Route points at index
0 and 1 are both exactly equal to the pickup location, yet the resolved
`pickupTime` is `call = 100`: the code breaks at the FIRST matching route
point, finds its timestamp non-numeric, abandons rule (a) entirely (it
never consults index 1 whose timestamp is 7), and falls through to rule
(c). The claim's rule (a) predicts the trip timestamp at a matching route
index (`none` at index 0 or `7` at index 1), neither of which is the
resolved value. -/
theorem c5_pickup_resolution_counterexample :
    (resolvePassenger
        (buildTripByPid [some ⟨some 1, some [mkJPt (0, 0), mkJPt (0, 0)], some [none, some 7]⟩])
        ⟨some 1, some [some 100], some [mkJPt (0, 0)], none, none⟩).pickupTime = some 100 ∧
    ptMatches (some 0) (some 0) (jptAt [mkJPt (0, 0), mkJPt (0, 0)] 0) = true ∧
    ptMatches (some 0) (some 0) (jptAt [mkJPt (0, 0), mkJPt (0, 0)] 1) = true ∧
    jnumAt [none, some 7] 0 = none ∧
    jnumAt [none, some 7] 1 = some 7 ∧
    some (100 : ℚ) ≠ some (7 : ℚ) ∧
    some (100 : ℚ) ≠ (none : JNum) := by
  refine ⟨?_, ?_, ?_, rfl, rfl, by simp, by simp⟩
  · have hroute : routePickupTime [none, some 7] (some 0) (some 0)
        [mkJPt (0, 0), mkJPt (0, 0)] 0 = none := by
      simp only [routePickupTime, mkJPt]
      norm_num [jeq, jnumAt]
    have hpft : pickupFromTrips
        (buildTripByPid [some ⟨some 1, some [mkJPt (0, 0), mkJPt (0, 0)], some [none, some 7]⟩])
        ⟨some 1, some [some 100], some [mkJPt (0, 0)], none, none⟩ = none := by
      show routePickupTime [none, some 7] (jptGet (mkJPt (0, 0)) 0) (jptGet (mkJPt (0, 0)) 1)
        [mkJPt (0, 0), mkJPt (0, 0)] 0 = none
      exact hroute
    simp only [resolvePassenger, hpft]
    rfl
  · norm_num [ptMatches, jptAt, jnumAt, jeq, mkJPt]
  · norm_num [ptMatches, jptAt, jnumAt, jeq, mkJPt]

/-- C5 amended: the matched trip is the first trip in collection order
whose `passenger_id` equals the passenger's (trips without an id never
match); rule (a) of the fallback chain scans the route in order, stops at
the FIRST route point whose two coordinates are strictly equal to the
pickup location, and produces a pickup time only when the timestamp at
that first matching index is numeric (later matching points are never
consulted); when rule (a) produces nothing, rule (b) gives
`call + wait_min` when both are numbers, else rule (c) gives `call`. -/
theorem c5_pickup_resolution_amended :
    (∀ (trips : List (Option Trip)) (pid : ℤ),
      mapGet (buildTripByPid trips) (some pid) =
        (trips.filterMap id).find? (fun t => t.passenger_id == some pid)) ∧
    (∀ (trips : List (Option Trip)), mapGet (buildTripByPid trips) none = none) ∧
    (∀ (ts : List JNum) (px0 px1 : JNum) (rt : List JPt),
      routePickupTime ts px0 px1 rt 0 =
        (rt.findIdx? (ptMatches px0 px1)).bind (fun j => jnumAt ts j)) ∧
    (∀ m p q, pickupFromTrips m p = some q → (resolvePassenger m p).pickupTime = some q) ∧
    (∀ m p c w, pickupFromTrips m p = none → resolvedCall p = some c → p.wait_min = some w →
      (resolvePassenger m p).pickupTime = some (c + w)) ∧
    (∀ m p, pickupFromTrips m p = none → (resolvedCall p = none ∨ p.wait_min = none) →
      (resolvePassenger m p).pickupTime = resolvedCall p) := by
  refine ⟨?_, ?_, ?_, ?_, ?_, ?_⟩
  · intro trips pid
    rw [mapGet, buildTripByPid, tripByPid_fold_find]
    simp [Option.map_map, Function.comp]
  · intro trips
    rfl
  · intro ts px0 px1 rt
    exact routePickupTime_eq_findIdx ts px0 px1 rt 0
  · intro m p q h
    simp only [resolvePassenger, h]
  · intro m p c w h hc hw
    simp only [resolvePassenger, h, hc, hw]
  · intro m p h hcw
    simp only [resolvePassenger, h]
    rcases hcw with hc | hw
    · rw [hc]
    · rw [hw]
      cases hc2 : resolvedCall p <;> rfl

/-- Witness for C5 amended: with no matching trip, a numeric call of 100
and `wait_min = 30`, rule (b) fires and gives 130. -/
theorem c5_pickup_resolution_amended_witness :
    (resolvePassenger [] ⟨some 1, some [some 100], some [mkJPt (0, 0)], none, some 30⟩).pickupTime =
      some 130 := by
  have h := c5_pickup_resolution_amended.2.2.2.2.1 []
    ⟨some 1, some [some 100], some [mkJPt (0, 0)], none, some 30⟩ 100 30 rfl rfl rfl
  rw [h]
  norm_num

/-! ### C4 -/

theorem interpIdxGo_no_match (ts : List JNum) (time : ℚ) (fuel k idx : ℕ)
    (h : ∀ j, k ≤ j → j < k + fuel → segCond ts time j = false) :
    interpIdxGo ts time fuel k idx =
      if 0 < fuel ∧ lastOverride ts time = true then ts.length - 2 else idx := by
  induction fuel generalizing k idx with
  | zero => simp [interpIdxGo]
  | succ n ih =>
    have hk := h k le_rfl (by omega)
    rw [interpIdxGo, hk]
    simp only [Bool.false_eq_true, if_false]
    rw [ih (k + 1) _ (fun j hj hjlt => h j (by omega) (by omega))]
    cases hov : lastOverride ts time
    · simp [hov]
    · simp [hov]

theorem interpIdxGo_first_match (ts : List JNum) (time : ℚ) (k : ℕ)
    (hm : segCond ts time k = true) :
    ∀ (fuel k0 idx : ℕ), k0 ≤ k → k < k0 + fuel →
      (∀ j, k0 ≤ j → j < k → segCond ts time j = false) →
      interpIdxGo ts time fuel k0 idx = k := by
  intro fuel
  induction fuel with
  | zero =>
    intro k0 idx h1 h2 h3
    omega
  | succ n ih =>
    intro k0 idx h1 h2 h3
    by_cases hk : k0 = k
    · subst hk
      rw [interpIdxGo, hm]
      simp
    · have hc : segCond ts time k0 = false := h3 k0 le_rfl (by omega)
      rw [interpIdxGo, hc]
      simp only [Bool.false_eq_true, if_false]
      exact ih (k0 + 1) _ (by omega) (by omega) (fun j hj hjk => h3 j (by omega) hjk)

theorem interpIdx_of_first_match (ts : List JNum) (time : ℚ) (k : ℕ)
    (hk : k + 1 < ts.length) (hm : segCond ts time k = true)
    (hfirst : ∀ j, j < k → segCond ts time j = false) :
    interpIdx ts time = k :=
  interpIdxGo_first_match ts time k hm (ts.length - 1) 0 0 (Nat.zero_le k) (by omega)
    (fun j _ hj => hfirst j hj)

theorem interpIdx_override_eq (ts : List JNum) (time : ℚ)
    (h : ∀ j, segCond ts time j = false) (h2 : 2 ≤ ts.length)
    (hov : lastOverride ts time = true) : interpIdx ts time = ts.length - 2 := by
  rw [interpIdx, interpIdxGo_no_match ts time (ts.length - 1) 0 0 (fun j _ _ => h j)]
  rw [if_pos ⟨by omega, hov⟩]

theorem interpIdx_default_eq (ts : List JNum) (time : ℚ)
    (h : ∀ j, segCond ts time j = false)
    (hov : lastOverride ts time = false) : interpIdx ts time = 0 := by
  rw [interpIdx, interpIdxGo_no_match ts time (ts.length - 1) 0 0 (fun j _ _ => h j)]
  rw [hov]
  simp

theorem segCond_map (qs : List ℚ) (time : ℚ) (k : ℕ) (hk : k + 1 < qs.length) :
    segCond (qs.map some) time k =
      (decide (qs.getD k 0 ≤ time) && decide (time < qs.getD (k + 1) 0)) := by
  rw [segCond, jnumAt_map_some qs k (by omega), jnumAt_map_some qs (k + 1) hk]
  simp [jle, jlt]

theorem segCond_map_oob (qs : List ℚ) (time : ℚ) (k : ℕ) (hk : qs.length ≤ k + 1) :
    segCond (qs.map some) time k = false := by
  rw [segCond, jnumAt_map_oob qs (k + 1) hk]
  simp

theorem sorted_getD_mono (qs : List ℚ) (hs : List.Sorted (· ≤ ·) qs) (i j : ℕ)
    (hij : i ≤ j) (hj : j < qs.length) : qs.getD i 0 ≤ qs.getD j 0 := by
  rcases Nat.eq_or_lt_of_le hij with h | h
  · subst h
    exact le_refl _
  · have hi : i < qs.length := by omega
    have := List.pairwise_iff_get.mp hs ⟨i, hi⟩ ⟨j, hj⟩ h
    rw [List.getD_eq_getElem?_getD, List.getD_eq_getElem?_getD,
      List.getElem?_eq_getElem hi, List.getElem?_eq_getElem hj]
    simpa using this

theorem lastOverride_map_of_ge (qs : List ℚ) (time : ℚ) (h1 : 1 ≤ qs.length)
    (hge : qs.getD (qs.length - 1) 0 ≤ time) :
    lastOverride (qs.map some) time = true := by
  rw [lastOverride, jge, List.length_map, jnumAt_map_some qs (qs.length - 1) (by omega)]
  show decide (qs.getD (qs.length - 1) 0 ≤ time) = true
  exact decide_eq_true hge

theorem lastOverride_map_of_lt (qs : List ℚ) (time : ℚ) (h1 : 1 ≤ qs.length)
    (hlt : time < qs.getD (qs.length - 1) 0) :
    lastOverride (qs.map some) time = false := by
  rw [lastOverride, jge, List.length_map, jnumAt_map_some qs (qs.length - 1) (by omega)]
  show decide (qs.getD (qs.length - 1) 0 ≤ time) = false
  rw [decide_eq_false_iff_not]
  linarith

theorem interpIdx_segment (qs : List ℚ) (time : ℚ) (k : ℕ)
    (hs : List.Sorted (· ≤ ·) qs) (hk : k + 1 < qs.length)
    (h1 : qs.getD k 0 ≤ time) (h2 : time < qs.getD (k + 1) 0) :
    interpIdx (qs.map some) time = k := by
  apply interpIdx_of_first_match
  · simpa using hk
  · rw [segCond_map qs time k hk]
    rw [decide_eq_true h1, decide_eq_true h2]
    rfl
  · intro j hj
    rw [segCond_map qs time j (by omega)]
    have hmono : qs.getD (j + 1) 0 ≤ qs.getD k 0 :=
      sorted_getD_mono qs hs (j + 1) k (by omega) (by omega)
    have hd : decide (time < qs.getD (j + 1) 0) = false := by
      rw [decide_eq_false_iff_not]
      intro hcon
      linarith
    rw [hd, Bool.and_false]

theorem interpIdx_ge_last (qs : List ℚ) (time : ℚ)
    (hs : List.Sorted (· ≤ ·) qs) (h2 : 2 ≤ qs.length)
    (hge : qs.getD (qs.length - 1) 0 ≤ time) :
    interpIdx (qs.map some) time = qs.length - 2 := by
  have hall : ∀ j, segCond (qs.map some) time j = false := by
    intro j
    by_cases hj : j + 1 < qs.length
    · rw [segCond_map qs time j hj]
      have hmono : qs.getD (j + 1) 0 ≤ qs.getD (qs.length - 1) 0 :=
        sorted_getD_mono qs hs (j + 1) (qs.length - 1) (by omega) (by omega)
      have hd : decide (time < qs.getD (j + 1) 0) = false := by
        rw [decide_eq_false_iff_not]
        intro hcon
        linarith
      rw [hd, Bool.and_false]
    · exact segCond_map_oob qs time j (by omega)
  have := interpIdx_override_eq (qs.map some) time hall (by simpa using h2)
    (lastOverride_map_of_ge qs time (by omega) hge)
  simpa using this

theorem interpIdx_before_start (qs : List ℚ) (time : ℚ)
    (hs : List.Sorted (· ≤ ·) qs) (h1 : 1 ≤ qs.length)
    (hlt : time < qs.getD 0 0) :
    interpIdx (qs.map some) time = 0 := by
  have hall : ∀ j, segCond (qs.map some) time j = false := by
    intro j
    by_cases hj : j + 1 < qs.length
    · rw [segCond_map qs time j hj]
      have hmono : qs.getD 0 0 ≤ qs.getD j 0 :=
        sorted_getD_mono qs hs 0 j (Nat.zero_le j) (by omega)
      have hd : decide (qs.getD j 0 ≤ time) = false := by
        rw [decide_eq_false_iff_not]
        intro hcon
        linarith
      rw [hd, Bool.false_and]
    · exact segCond_map_oob qs time j (by omega)
  apply interpIdx_default_eq (qs.map some) time hall
  apply lastOverride_map_of_lt qs time h1
  have hmono : qs.getD 0 0 ≤ qs.getD (qs.length - 1) 0 :=
    sorted_getD_mono qs hs 0 (qs.length - 1) (Nat.zero_le _) (by omega)
  linarith

theorem interpolate_eval (ps : List (ℚ × ℚ)) (qs : List ℚ) (time : ℚ) (k : ℕ)
    (hlen : ps.length = qs.length) (hk : k + 1 < qs.length)
    (hidx : interpIdx (qs.map some) time = k) :
    interpolate (ps.map mkJPt) (qs.map some) time =
      (if qs.getD k 0 < qs.getD (k + 1) 0 then
        mkJPt ((ps.getD k (0, 0)).1 + ((ps.getD (k + 1) (0, 0)).1 - (ps.getD k (0, 0)).1) *
            (max 0 (min 1 ((time - qs.getD k 0) / (qs.getD (k + 1) 0 - qs.getD k 0)))),
          (ps.getD k (0, 0)).2 + ((ps.getD (k + 1) (0, 0)).2 - (ps.getD k (0, 0)).2) *
            (max 0 (min 1 ((time - qs.getD k 0) / (qs.getD (k + 1) 0 - qs.getD k 0)))))
       else mkJPt (ps.getD k (0, 0))) := by
  have hclamp1 : clampIdx k (ps.map mkJPt).length = k := by
    rw [List.length_map]
    exact clampIdx_of_lt k ps.length (by omega)
  have hclamp2 : clampIdx (k + 1) (ps.map mkJPt).length = k + 1 := by
    rw [List.length_map]
    exact clampIdx_of_lt (k + 1) ps.length (by omega)
  have hclamp3 : clampIdx k (qs.map some).length = k := by
    rw [List.length_map]
    exact clampIdx_of_lt k qs.length (by omega)
  have hclamp4 : clampIdx (k + 1) (qs.map some).length = k + 1 := by
    rw [List.length_map]
    exact clampIdx_of_lt (k + 1) qs.length (by omega)
  simp only [interpolate, hidx, hclamp1, hclamp2, hclamp3, hclamp4]
  rw [jptAt_map_mk ps k (by omega), jptAt_map_mk ps (k + 1) (by omega),
    jnumAt_map_some qs k (by omega), jnumAt_map_some qs (k + 1) hk]
  rfl

theorem interpolate_segment_formula (ps : List (ℚ × ℚ)) (qs : List ℚ) (t : ℚ) (k : ℕ)
    (hlen : ps.length = qs.length) (hs : List.Sorted (· ≤ ·) qs)
    (hk : k + 1 < qs.length) (h1 : qs.getD k 0 ≤ t) (h2 : t < qs.getD (k + 1) 0) :
    interpolate (ps.map mkJPt) (qs.map some) t =
      mkJPt ((ps.getD k (0, 0)).1 + ((ps.getD (k + 1) (0, 0)).1 - (ps.getD k (0, 0)).1) *
          (max 0 (min 1 ((t - qs.getD k 0) / (qs.getD (k + 1) 0 - qs.getD k 0)))),
        (ps.getD k (0, 0)).2 + ((ps.getD (k + 1) (0, 0)).2 - (ps.getD k (0, 0)).2) *
          (max 0 (min 1 ((t - qs.getD k 0) / (qs.getD (k + 1) 0 - qs.getD k 0))))) := by
  rw [interpolate_eval ps qs t k hlen hk (interpIdx_segment qs t k hs hk h1 h2),
    if_pos (by linarith)]

theorem interpolate_after_last_pos (ps : List (ℚ × ℚ)) (qs : List ℚ) (t : ℚ)
    (hlen : ps.length = qs.length) (hs : List.Sorted (· ≤ ·) qs) (h2 : 2 ≤ qs.length)
    (hge : qs.getD (qs.length - 1) 0 ≤ t)
    (hq : qs.getD (qs.length - 2) 0 < qs.getD (qs.length - 1) 0) :
    interpolate (ps.map mkJPt) (qs.map some) t = mkJPt (ps.getD (qs.length - 1) (0, 0)) := by
  have he : qs.length - 2 + 1 = qs.length - 1 := by omega
  have hq2 : qs.getD (qs.length - 2) 0 < qs.getD (qs.length - 2 + 1) 0 := by rw [he]; exact hq
  rw [interpolate_eval ps qs t (qs.length - 2) hlen (by omega)
    (interpIdx_ge_last qs t hs h2 hge), if_pos hq2]
  have halpha : max 0 (min 1 ((t - qs.getD (qs.length - 2) 0) /
      (qs.getD (qs.length - 2 + 1) 0 - qs.getD (qs.length - 2) 0))) = 1 := by
    rw [he]
    have hr : (1 : ℚ) ≤ (t - qs.getD (qs.length - 2) 0) /
        (qs.getD (qs.length - 1) 0 - qs.getD (qs.length - 2) 0) := by
      rw [le_div_iff₀ (by linarith)]
      linarith
    rw [min_eq_left hr]
    norm_num
  rw [halpha, he]
  have e1 : ∀ a b : ℚ, a + (b - a) * 1 = b := by
    intro a b
    ring
  rw [e1, e1]

theorem interpolate_after_last_zero (ps : List (ℚ × ℚ)) (qs : List ℚ) (t : ℚ)
    (hlen : ps.length = qs.length) (hs : List.Sorted (· ≤ ·) qs) (h2 : 2 ≤ qs.length)
    (hge : qs.getD (qs.length - 1) 0 ≤ t)
    (hq : qs.getD (qs.length - 2) 0 = qs.getD (qs.length - 1) 0) :
    interpolate (ps.map mkJPt) (qs.map some) t = mkJPt (ps.getD (qs.length - 2) (0, 0)) := by
  have he : qs.length - 2 + 1 = qs.length - 1 := by omega
  have hq2 : ¬ qs.getD (qs.length - 2) 0 < qs.getD (qs.length - 2 + 1) 0 := by
    rw [he, hq]
    exact lt_irrefl _
  rw [interpolate_eval ps qs t (qs.length - 2) hlen (by omega)
    (interpIdx_ge_last qs t hs h2 hge), if_neg hq2]

theorem interpolate_before_start_eq (ps : List (ℚ × ℚ)) (qs : List ℚ) (t : ℚ)
    (hlen : ps.length = qs.length) (hs : List.Sorted (· ≤ ·) qs) (h2 : 2 ≤ qs.length)
    (hlt : t < qs.getD 0 0) :
    interpolate (ps.map mkJPt) (qs.map some) t = mkJPt (ps.getD 0 (0, 0)) := by
  rw [interpolate_eval ps qs t 0 hlen (by omega) (interpIdx_before_start qs t hs (by omega) hlt)]
  by_cases hq : qs.getD 0 0 < qs.getD 1 0
  · rw [if_pos (by simpa using hq)]
    have halpha : max 0 (min 1 ((t - qs.getD 0 0) / (qs.getD (0 + 1) 0 - qs.getD 0 0))) = 0 := by
      have hr : (t - qs.getD 0 0) / (qs.getD (0 + 1) 0 - qs.getD 0 0) ≤ 0 := by
        apply div_nonpos_of_nonpos_of_nonneg
        · linarith
        · simp only [Nat.zero_add]
          linarith
      rw [min_eq_right (by linarith), max_eq_left hr]
    rw [halpha]
    have e0 : ∀ a b : ℚ, a + (b - a) * 0 = a := by
      intro a b
      ring
    rw [e0, e0]
  · rw [if_neg (by simpa using hq)]

/-- C4 counterexample: with the non-decreasing timestamps `[0, 10, 10, 20]`
and route `[[0,0],[1,1],[5,5],[6,6]]`, the first segment has `t0 = 0 <
t1 = 10`, yet interpolation at its end time `t = 10` returns `[5,5]` (the
start of the zero-duration segment at index 2), not the segment end
`[1,1]`: the claimed end-time boundary exactness fails when a
zero-duration segment starts at that instant. -/
theorem c4_interpolation_counterexample :
    interpolate (([((0 : ℚ), (0 : ℚ)), (1, 1), (5, 5), (6, 6)]).map mkJPt)
        (([(0 : ℚ), 10, 10, 20]).map some) 10 = mkJPt (5, 5) ∧
    (([(0 : ℚ), 10, 10, 20]).getD 0 0 < ([(0 : ℚ), 10, 10, 20]).getD 1 0) ∧
    mkJPt ((5 : ℚ), 5) ≠ mkJPt ((1 : ℚ), 1) := by
  refine ⟨?_, by norm_num, by simp [mkJPt]⟩
  have hidx : interpIdx (([(0 : ℚ), 10, 10, 20]).map some) 10 = 2 := by
    apply interpIdx_segment ([(0 : ℚ), 10, 10, 20]) 10 2
    · simp [List.sorted_cons]
      norm_num
    · norm_num
    · norm_num
    · norm_num
  rw [interpolate_eval ([((0 : ℚ), (0 : ℚ)), (1, 1), (5, 5), (6, 6)])
    ([(0 : ℚ), 10, 10, 20]) 10 2 (by norm_num) (by norm_num) hidx]
  norm_num [mkJPt]

/-- C4 amended: over a trip with parallel arrays (route of coordinate
pairs, non-decreasing numeric timestamps, length at least 2) the
interpolation block satisfies: (segment rule) at `t` inside segment `k`
(`ts[k] <= t < ts[k+1]`) each axis is `a + (b - a) * alpha` with
`alpha = clamp((t - ts[k]) / (ts[k+1] - ts[k]), 0, 1)`; (tail rule) for
`t >= ts[last]` the final segment is used, giving its end point when it
has positive duration and its start point (`alpha = 0`) when it has zero
duration; (head rule) for `t` before `ts[0]` the result is `route[0]`;
(exactness) at a positive-duration segment's start time the start point
is returned and at its temporal midpoint the coordinate average; at its
end time the end point is returned PROVIDED no zero-duration segment
starts at that time (next segment strictly increasing, or the segment is
final) — without that proviso end-time exactness fails (see the
counterexample). -/
theorem c4_interpolation_amended (qs : List ℚ) (ps : List (ℚ × ℚ))
    (hlen : ps.length = qs.length) (h2 : 2 ≤ qs.length)
    (hs : List.Sorted (· ≤ ·) qs) :
    (∀ (t : ℚ) (k : ℕ), k + 1 < qs.length → qs.getD k 0 ≤ t → t < qs.getD (k + 1) 0 →
      interpolate (ps.map mkJPt) (qs.map some) t =
        mkJPt ((ps.getD k (0, 0)).1 + ((ps.getD (k + 1) (0, 0)).1 - (ps.getD k (0, 0)).1) *
            (max 0 (min 1 ((t - qs.getD k 0) / (qs.getD (k + 1) 0 - qs.getD k 0)))),
          (ps.getD k (0, 0)).2 + ((ps.getD (k + 1) (0, 0)).2 - (ps.getD k (0, 0)).2) *
            (max 0 (min 1 ((t - qs.getD k 0) / (qs.getD (k + 1) 0 - qs.getD k 0)))))) ∧
    (∀ t : ℚ, qs.getD (qs.length - 1) 0 ≤ t →
      qs.getD (qs.length - 2) 0 < qs.getD (qs.length - 1) 0 →
      interpolate (ps.map mkJPt) (qs.map some) t = mkJPt (ps.getD (qs.length - 1) (0, 0))) ∧
    (∀ t : ℚ, t < qs.getD 0 0 →
      interpolate (ps.map mkJPt) (qs.map some) t = mkJPt (ps.getD 0 (0, 0))) ∧
    (∀ t : ℚ, qs.getD (qs.length - 1) 0 ≤ t →
      qs.getD (qs.length - 2) 0 = qs.getD (qs.length - 1) 0 →
      interpolate (ps.map mkJPt) (qs.map some) t = mkJPt (ps.getD (qs.length - 2) (0, 0))) ∧
    (∀ k : ℕ, k + 1 < qs.length → qs.getD k 0 < qs.getD (k + 1) 0 →
      interpolate (ps.map mkJPt) (qs.map some) (qs.getD k 0) = mkJPt (ps.getD k (0, 0))) ∧
    (∀ k : ℕ, k + 1 < qs.length → qs.getD k 0 < qs.getD (k + 1) 0 →
      interpolate (ps.map mkJPt) (qs.map some) ((qs.getD k 0 + qs.getD (k + 1) 0) / 2) =
        mkJPt (((ps.getD k (0, 0)).1 + (ps.getD (k + 1) (0, 0)).1) / 2,
          ((ps.getD k (0, 0)).2 + (ps.getD (k + 1) (0, 0)).2) / 2)) ∧
    (∀ k : ℕ, k + 1 < qs.length → qs.getD k 0 < qs.getD (k + 1) 0 →
      (k + 2 = qs.length ∨ (k + 2 < qs.length ∧ qs.getD (k + 1) 0 < qs.getD (k + 2) 0)) →
      interpolate (ps.map mkJPt) (qs.map some) (qs.getD (k + 1) 0) =
        mkJPt (ps.getD (k + 1) (0, 0))) := by
  have e0 : ∀ a b : ℚ, a + (b - a) * 0 = a := by
    intro a b
    ring
  have hstart : ∀ k : ℕ, k + 1 < qs.length → qs.getD k 0 < qs.getD (k + 1) 0 →
      interpolate (ps.map mkJPt) (qs.map some) (qs.getD k 0) = mkJPt (ps.getD k (0, 0)) := by
    intro k hk hq
    rw [interpolate_segment_formula ps qs (qs.getD k 0) k hlen hs hk le_rfl hq]
    have halpha : max 0 (min 1 ((qs.getD k 0 - qs.getD k 0) /
        (qs.getD (k + 1) 0 - qs.getD k 0))) = 0 := by
      rw [sub_self, zero_div]
      norm_num
    rw [halpha, e0, e0]
  refine ⟨?_, ?_, ?_, ?_, hstart, ?_, ?_⟩
  · intro t k hk hlo hhi
    exact interpolate_segment_formula ps qs t k hlen hs hk hlo hhi
  · intro t hge hq
    exact interpolate_after_last_pos ps qs t hlen hs h2 hge hq
  · intro t hlt
    exact interpolate_before_start_eq ps qs t hlen hs h2 hlt
  · intro t hge hq
    exact interpolate_after_last_zero ps qs t hlen hs h2 hge hq
  · intro k hk hq
    rw [interpolate_segment_formula ps qs ((qs.getD k 0 + qs.getD (k + 1) 0) / 2) k hlen hs hk
      (by linarith) (by linarith)]
    have hr : ((qs.getD k 0 + qs.getD (k + 1) 0) / 2 - qs.getD k 0) /
        (qs.getD (k + 1) 0 - qs.getD k 0) = 1 / 2 := by
      rw [div_eq_div_iff (by linarith) (by norm_num)]
      ring
    rw [hr]
    have halpha : max 0 (min 1 ((1 : ℚ) / 2)) = 1 / 2 := by norm_num
    rw [halpha]
    simp only [mkJPt, Option.some.injEq, List.cons.injEq, and_true]
    exact ⟨by ring, by ring⟩
  · intro k hk hq hnext
    rcases hnext with hlast | ⟨hk2, hq2⟩
    · have ha : qs.length - 1 = k + 1 := by omega
      have hb2 : qs.length - 2 = k := by omega
      have h3 := interpolate_after_last_pos ps qs (qs.getD (k + 1) 0) hlen hs h2
        (by rw [ha]) (by rw [ha, hb2]; exact hq)
      rw [ha] at h3
      exact h3
    · rw [interpolate_segment_formula ps qs (qs.getD (k + 1) 0) (k + 1) hlen hs (by omega)
        le_rfl hq2]
      have halpha : max 0 (min 1 ((qs.getD (k + 1) 0 - qs.getD (k + 1) 0) /
          (qs.getD (k + 1 + 1) 0 - qs.getD (k + 1) 0))) = 0 := by
        rw [sub_self, zero_div]
        norm_num
      rw [halpha, e0, e0]

/-- Witness for C4 amended: on the spec's example trip, the temporal
midpoint of the second segment (t = 15) yields the coordinate average
`[1.5, 1.5]`. -/
theorem c4_interpolation_amended_witness :
    interpolate (([((0 : ℚ), (0 : ℚ)), (1, 1), (2, 2)]).map mkJPt)
      (([(0 : ℚ), 10, 20]).map some) 15 = mkJPt (3 / 2, 3 / 2) := by
  have h := (c4_interpolation_amended [(0 : ℚ), 10, 20] [((0 : ℚ), (0 : ℚ)), (1, 1), (2, 2)]
    (by norm_num) (by norm_num)
    (by simp [List.sorted_cons]; norm_num)).2.2.2.2.2.1 1 (by norm_num) (by norm_num)
  norm_num at h
  exact h
